import Mathlib

/-!
Shallow embedding of the legal-document backend (Express server with a
Firestore "remote" backend and a JSON-file "local" fallback backend), from
`src/server.js` and `src/middleware/auth.js`.

Modelling conventions:
* JS strings are Lean `String`s, byte counts are `Nat`.
* `FieldValue.serverTimestamp()` is the distinguished value `TimeVal.sentinel`;
  a timestamp that has actually been resolved to a time is `TimeVal.time t`.
  The local branch of the upload handler stores the unresolved sentinel in
  the JSON file (server.js line 174 builds `docData` with
  `uploadedAt: FieldValue.serverTimestamp()` and line 189 unshifts it as-is);
  Firestore resolves the sentinel to the server's write time, modelled by an
  explicit `serverNow` parameter of the remote create.
* The Firestore collection and the local JSON array are both modelled as
  `List DocRecord`; the on-disk upload directory is a `List String` of paths.
* Fallible effects are modelled by explicit flags: `writeFails` for
  `fs.writeFileSync` inside `writeLocalMetadata` (whose try/catch swallows the
  error), `unlinkFails p` for `fs.unlinkSync p` throwing, `remoteFails` for a
  Firestore call rejecting (which the handler's try/catch turns into a 500).
* HTTP responses are modelled by status code, the `success` flag, the
  `message` string, and the optional `id` field of the JSON body; the `data`
  payload of success bodies is not modelled (no claim inspects it).
-/

namespace LegalDoc

/-- A timestamp value: either the unresolved `FieldValue.serverTimestamp()`
sentinel or a resolved time (milliseconds). -/
inductive TimeVal where
  | sentinel : TimeVal
  | time : Nat → TimeVal
  deriving DecidableEq, Repr

/-- Numeric key used when comparing timestamps for ordering: modelling choice
for the external store's ordering; an unresolved sentinel sorts as 0. -/
def tval : TimeVal → Nat
  | TimeVal.sentinel => 0
  | TimeVal.time t => t

/-- The verified principal attached by the auth middleware (`req.user`):
only the fields the handlers read. -/
structure Principal where
  uid : String
  email : String
  deriving DecidableEq, Repr

/-- `req.file` as produced by multer's disk storage. -/
structure UploadedFile where
  filename : String
  originalname : String
  mimetype : String
  size : Nat
  path : String
  deriving DecidableEq, Repr

/-- The `docData` object built by the upload handler (server.js 165-175):
a document record without its store-assigned id. -/
structure DocData where
  userId : String
  userEmail : String
  fileName : String
  originalName : String
  fileType : String
  fileSize : Nat
  filePath : String
  status : String
  uploadedAt : TimeVal
  deriving DecidableEq, Repr

/-- A stored metadata record: `{ id, ...docData }`. -/
structure DocRecord where
  id : String
  userId : String
  userEmail : String
  fileName : String
  originalName : String
  fileType : String
  fileSize : Nat
  filePath : String
  status : String
  uploadedAt : TimeVal
  deriving DecidableEq, Repr

/-- Spread an id onto a `DocData` (the JS `{ id, ...docData }`). -/
def withId (i : String) (d : DocData) : DocRecord :=
  { id := i, userId := d.userId, userEmail := d.userEmail,
    fileName := d.fileName, originalName := d.originalName,
    fileType := d.fileType, fileSize := d.fileSize, filePath := d.filePath,
    status := d.status, uploadedAt := d.uploadedAt }

/-- server.js 165-175: the metadata object built from the authenticated user
and the multer file; `status` is the literal string and `uploadedAt` is the
`FieldValue.serverTimestamp()` sentinel. -/
def mkDocData (user : Principal) (file : UploadedFile) : DocData :=
  { userId := user.uid, userEmail := user.email,
    fileName := file.filename, originalName := file.originalname,
    fileType := file.mimetype, fileSize := file.size, filePath := file.path,
    status := "uploaded", uploadedAt := TimeVal.sentinel }

/-- server.js line 88: `10 * 1024 * 1024`. -/
def MAX_FILE_SIZE_BYTES : Nat := 10 * 1024 * 1024

/-- server.js line 92. -/
def ALLOWED_EXTS : List String := [".pdf", ".docx", ".txt"]

/-- server.js lines 93-97. -/
def ALLOWED_MIME : List String :=
  ["application/pdf",
   "application/vnd.openxmlformats-officedocument.wordprocessingml.document",
   "text/plain"]

/-- The suffix of a character list starting at its last dot, if any. -/
def lastDotSuffix : List Char → Option (List Char)
  | [] => none
  | c :: rest =>
    match lastDotSuffix rest with
    | some s => some s
    | none => if c = '.' then some (c :: rest) else none

/-- Node's `path.extname` on a bare file name (upload names contain no
directory separator): the substring from the last dot to the end, empty when
there is no dot or the only dot is the leading character (dotfile). -/
def extname (name : String) : String :=
  match lastDotSuffix name.toList with
  | none => ""
  | some s => if s.length = name.toList.length then "" else String.mk s

/-- JS `toLowerCase`, character by character. -/
def lowercase (s : String) : String :=
  String.mk (s.toList.map Char.toLower)

/-- server.js 143-149: multer `fileFilter`; lower-cased extension must be an
allowed extension and the declared MIME type an allowed type. -/
def fileFilterOk (f : UploadedFile) : Bool :=
  ALLOWED_EXTS.contains (lowercase (extname f.originalname)) &&
    ALLOWED_MIME.contains f.mimetype

/-- Errors multer can hand to the express error handler for an upload. -/
inductive MulterError where
  | invalidFileType : MulterError
  | limitFileSize : MulterError
  deriving DecidableEq, Repr

/-- The multer middleware stage (server.js 140-150): when a file part is
present, `fileFilter` runs first (at file-header time) and rejects with
`INVALID_FILE_TYPE`; only an accepted file can then trip the
`limits.fileSize` check (`LIMIT_FILE_SIZE`) while streaming. When no file
part is present multer does nothing and control reaches the route handler. -/
def multerStage (file : Option UploadedFile) : Option MulterError :=
  match file with
  | none => none
  | some f =>
    if fileFilterOk f then
      if f.size ≤ MAX_FILE_SIZE_BYTES then none
      else some MulterError.limitFileSize
    else some MulterError.invalidFileType

/-- The modelled HTTP response: status code plus the `success`, `message`
and optional `id` fields of the JSON body. -/
structure Response where
  status : Nat
  success : Bool
  message : String
  id : Option String := none
  deriving DecidableEq, Repr

/-- server.js 423-439: the express error handler mapping multer errors. -/
def errorHandler : MulterError → Response
  | MulterError.limitFileSize =>
    { status := 413, success := false, message := "File too large. Max 10 MB" }
  | MulterError.invalidFileType =>
    { status := 400, success := false,
      message := "Invalid file type. Only PDF, DOCX, and TXT allowed." }

/-- server.js 157-161. -/
def noFileResp : Response :=
  { status := 400, success := false, message := "No file uploaded" }

/-- The uniform 404 body. -/
def notFoundResp : Response :=
  { status := 404, success := false, message := "Document not found" }

/-- The uniform 403 body. -/
def accessDeniedResp : Response :=
  { status := 403, success := false, message := "Access denied" }

/-- server.js 116-122: `writeLocalMetadata` wraps `fs.writeFileSync` in a
try/catch whose catch only logs. Given the intended new contents `arr` and
the previous on-disk contents `old`, the resulting file contents are `arr`
on success and still `old` when the write throws (the error is swallowed). -/
def writeLocalMetadata (writeFails : Bool) (arr old : List DocRecord) :
    List DocRecord :=
  if writeFails then old else arr

/-- server.js 188: the local id `local-<Date.now()>-<random>`. -/
def localId (now rand : Nat) : String :=
  "local-" ++ toString now ++ "-" ++ toString rand

/-- server.js 187-189: the local-store create, an unshift of the new record
onto the array read from the metadata file. -/
def localCreate (d : DocData) (now rand : Nat) (st : List DocRecord) :
    List DocRecord :=
  withId (localId now rand) d :: st

/-- POST /api/upload, local branch (server.js 155-203 with `db` null):
multer stage, then the handler's no-file check, then build `docData`,
prepend it under a fresh local id and write the metadata file. -/
def localUpload (writeFails : Bool) (user : Principal)
    (file : Option UploadedFile) (now rand : Nat) (st : List DocRecord) :
    Response × List DocRecord :=
  match multerStage file with
  | some e => (errorHandler e, st)
  | none =>
    match file with
    | none => (noFileResp, st)
    | some f =>
      ({ status := 201, success := true,
         message := "File uploaded & metadata saved locally",
         id := some (localId now rand) },
       writeLocalMetadata writeFails (localCreate (mkDocData user f) now rand st) st)

/-- server.js 198-203: the handler's catch for a rejected Firestore call. -/
def uploadFailedResp : Response :=
  { status := 500, success := false, message := "Upload failed" }

/-- POST /api/upload, remote branch (server.js 155-203 with `db` set):
multer stage, no-file check, then `db.collection.add(docData)`, which
assigns a fresh id and resolves the serverTimestamp sentinel to the server's
write time; a rejected call is caught and mapped to the generic 500. -/
def remoteUpload (remoteFails : Bool) (user : Principal)
    (file : Option UploadedFile) (freshId : String) (serverNow : Nat)
    (db : List DocRecord) : Response × List DocRecord :=
  match multerStage file with
  | some e => (errorHandler e, db)
  | none =>
    match file with
    | none => (noFileResp, db)
    | some f =>
      if remoteFails then (uploadFailedResp, db)
      else
        ({ status := 201, success := true,
           message := "File uploaded & metadata saved to Firestore",
           id := some freshId },
         db ++ [withId freshId
                  { mkDocData user f with uploadedAt := TimeVal.time serverNow }])

/-- The three validation rejections named by the spec. -/
inductive UploadReject where
  | noFile : UploadReject
  | invalidFileType : UploadReject
  | fileTooLarge : UploadReject
  deriving DecidableEq, Repr

/-- Modelled from the spec's validation order (spec 4.3): file presence,
then extension, then declared content type, then the size ceiling, rejecting
on the first failing check. Used only to compare against the code's
pipeline. -/
def specValidate (file : Option UploadedFile) : Option UploadReject :=
  match file with
  | none => some UploadReject.noFile
  | some f =>
    if ALLOWED_EXTS.contains (lowercase (extname f.originalname)) then
      if ALLOWED_MIME.contains f.mimetype then
        if f.size ≤ MAX_FILE_SIZE_BYTES then none
        else some UploadReject.fileTooLarge
      else some UploadReject.invalidFileType
    else some UploadReject.invalidFileType

/-- The response the code produces for each validation rejection. -/
def rejectResponse : UploadReject → Response
  | UploadReject.noFile => noFileResp
  | UploadReject.invalidFileType => errorHandler MulterError.invalidFileType
  | UploadReject.fileTooLarge => errorHandler MulterError.limitFileSize

/-- The state a document handler touches: the metadata store (local JSON
array or remote collection) and the set of file paths present on disk. -/
structure Sys where
  store : List DocRecord
  disk : List String
  deriving DecidableEq, Repr

/-- GET /api/documents/:id, local branch (server.js 253-268): find the
record (`docs.find`), 404 when absent, 403 when owned by someone else,
otherwise the record; no write happens on any path. -/
def localGetById (uid docId : String) (s : Sys) : Response × Sys :=
  match s.store.find? (fun d => d.id == docId) with
  | none => (notFoundResp, s)
  | some found =>
    if found.userId != uid then (accessDeniedResp, s)
    else ({ status := 200, success := true, message := "", id := some found.id }, s)

/-- GET /api/documents/:id, remote branch (server.js 234-251): Firestore
point lookup, 404 when the doc does not exist, 403 on owner mismatch. -/
def remoteGetById (uid docId : String) (s : Sys) : Response × Sys :=
  match s.store.find? (fun d => d.id == docId) with
  | none => (notFoundResp, s)
  | some doc =>
    if doc.userId != uid then (accessDeniedResp, s)
    else ({ status := 200, success := true, message := "", id := some doc.id }, s)

/-- JS falsiness of the destructured `status` body field: absent or "". -/
def strFalsy : Option String → Bool
  | none => true
  | some s => s == ""

/-- server.js 282-285. -/
def missingStatusResp : Response :=
  { status := 400, success := false, message := "Missing status value" }

/-- The JS `docs.findIndex` followed by `docs[idx].status = status`:
set the status of the first record whose id matches. -/
def updateFirst (docId stv : String) : List DocRecord → List DocRecord
  | [] => []
  | d :: rest =>
    if d.id == docId then { d with status := stv } :: rest
    else d :: updateFirst docId stv rest

/-- PATCH /api/documents/:id/status, local branch (server.js 279-324 with
`db` null): falsy-status check, findIndex, 404/403, then mutate the first
matching record's status and write the metadata file. -/
def localUpdateStatus (writeFails : Bool) (uid docId : String)
    (status : Option String) (s : Sys) : Response × Sys :=
  if strFalsy status then (missingStatusResp, s)
  else
    match s.store.find? (fun d => d.id == docId) with
    | none => (notFoundResp, s)
    | some d =>
      if d.userId != uid then (accessDeniedResp, s)
      else
        ({ status := 200, success := true, message := "Status updated locally" },
         { s with store := writeLocalMetadata writeFails
                             (updateFirst docId (status.getD "") s.store) s.store })

/-- PATCH /api/documents/:id/status, remote branch (server.js 279-306 with
`db` set): falsy-status check, point lookup, 404/403, then
`docRef.update({ status })` on the (unique) document with that id. -/
def remoteUpdateStatus (uid docId : String) (status : Option String)
    (s : Sys) : Response × Sys :=
  if strFalsy status then (missingStatusResp, s)
  else
    match s.store.find? (fun d => d.id == docId) with
    | none => (notFoundResp, s)
    | some d =>
      if d.userId != uid then (accessDeniedResp, s)
      else
        ({ status := 200, success := true, message := "Status updated" },
         { s with store := updateFirst docId (status.getD "") s.store })

/-- server.js 385-390: the delete handler's catch (also reached when
`fs.unlinkSync` throws, in which case the metadata was never touched). -/
def deleteFailedResp : Response :=
  { status := 500, success := false, message := "Failed to delete document" }

/-- server.js 383. -/
def localDeletedResp : Response :=
  { status := 200, success := true, message := "Document deleted locally" }

/-- server.js 360. -/
def remoteDeletedResp : Response :=
  { status := 200, success := true, message := "Document deleted" }

/-- DELETE /api/documents/:id, local branch (server.js 362-383): findIndex,
404/403, then `if (filePath && fs.existsSync(filePath)) fs.unlinkSync(...)`
— a throwing unlink lands in the catch (500) before any metadata change —
then filter out the id and write the metadata file. -/
def localDelete (unlinkFails : String → Bool) (writeFails : Bool)
    (uid docId : String) (s : Sys) : Response × Sys :=
  match s.store.find? (fun d => d.id == docId) with
  | none => (notFoundResp, s)
  | some d =>
    if d.userId != uid then (accessDeniedResp, s)
    else
      if (d.filePath != "") && s.disk.contains d.filePath then
        if unlinkFails d.filePath then (deleteFailedResp, s)
        else
          (localDeletedResp,
           { store := writeLocalMetadata writeFails
                        (s.store.filter (fun r => r.id != docId)) s.store,
             disk := s.disk.erase d.filePath })
      else
        (localDeletedResp,
         { s with store := writeLocalMetadata writeFails
                             (s.store.filter (fun r => r.id != docId)) s.store })

/-- DELETE /api/documents/:id, remote branch (server.js 336-360): point
lookup, 404/403, the same guarded unlink (a throw lands in the catch with
the metadata still present), then `docRef.delete()`. -/
def remoteDelete (unlinkFails : String → Bool) (uid docId : String)
    (s : Sys) : Response × Sys :=
  match s.store.find? (fun d => d.id == docId) with
  | none => (notFoundResp, s)
  | some doc =>
    if doc.userId != uid then (accessDeniedResp, s)
    else
      if (doc.filePath != "") && s.disk.contains doc.filePath then
        if unlinkFails doc.filePath then (deleteFailedResp, s)
        else
          (remoteDeletedResp,
           { store := s.store.filter (fun r => r.id != docId),
             disk := s.disk.erase doc.filePath })
      else
        (remoteDeletedResp,
         { s with store := s.store.filter (fun r => r.id != docId) })

/-- GET /api/documents, local branch (server.js 218-221): read the metadata
file and filter by the caller's uid; the list is NOT sorted, it keeps the
order of the backing file. -/
def localListByOwner (uid : String) (st : List DocRecord) : List DocRecord :=
  st.filter (fun d => d.userId == uid)

/-- Insert a record into a list kept in descending `uploadedAt` order. -/
def insertDesc (r : DocRecord) : List DocRecord → List DocRecord
  | [] => [r]
  | x :: xs =>
    if tval x.uploadedAt ≤ tval r.uploadedAt then r :: x :: xs
    else x :: insertDesc r xs

/-- Insertion sort into descending `uploadedAt` order. -/
def sortDesc : List DocRecord → List DocRecord
  | [] => []
  | x :: xs => insertDesc x (sortDesc xs)

/-- Adjacent-pairs check that a list is in descending `uploadedAt` order. -/
def sortedDescB : List DocRecord → Bool
  | [] => true
  | [_] => true
  | a :: b :: rest =>
    decide (tval b.uploadedAt ≤ tval a.uploadedAt) && sortedDescB (b :: rest)

/-- GET /api/documents, remote branch (server.js 210-216): the Firestore
query `where('userId','==',uid).orderBy('uploadedAt','desc')`, an external
collaborator modelled by its documented semantics (spec 4.2): filter by
owner, then sort by `uploadedAt` descending. -/
def remoteListByOwner (uid : String) (db : List DocRecord) : List DocRecord :=
  sortDesc (db.filter (fun d => d.userId == uid))

/-- Split a character list at the first occurrence of `sep`: the part before
it and the part after it, or `none` when `sep` does not occur. -/
def breakOn (sep : List Char) : List Char → Option (List Char × List Char)
  | [] => if sep.isEmpty then some ([], []) else none
  | c :: cs =>
    if sep.isPrefixOf (c :: cs) then some ([], (c :: cs).drop sep.length)
    else
      match breakOn sep cs with
      | none => none
      | some (pre, post) => some (c :: pre, post)

/-- middleware/auth.js 12: `authHeader.split('Bearer ')[1]` — the piece of
the header between the first occurrence of "Bearer " and the next occurrence
(or the end), i.e. element 1 of the JS split. -/
def extractToken (h : String) : String :=
  match breakOn "Bearer ".toList h.toList with
  | none => ""
  | some (_, post) =>
    match breakOn "Bearer ".toList post with
    | none => String.mk post
    | some (pre2, _) => String.mk pre2

/-- Outcome of the auth middleware. -/
inductive AuthResult where
  | noToken : AuthResult
  | invalidToken : AuthResult
  | ok : Principal → AuthResult
  deriving DecidableEq, Repr

/-- middleware/auth.js 5-22: 401 "No token provided" when the header is
absent or does not start with "Bearer "; otherwise verify the extracted
token against the identity provider (modelled as the function `verify`),
401 "Unauthorized" when verification fails, else attach the principal. -/
def verifyToken (verify : String → Option Principal)
    (authHeader : Option String) : AuthResult :=
  match authHeader with
  | none => AuthResult.noToken
  | some h =>
    if "Bearer ".toList.isPrefixOf h.toList then
      match verify (extractToken h) with
      | some u => AuthResult.ok u
      | none => AuthResult.invalidToken
    else AuthResult.noToken

/-- auth.js 9. -/
def noTokenResp : Response :=
  { status := 401, success := false, message := "No token provided" }

/-- auth.js 20. -/
def invalidTokenResp : Response :=
  { status := 401, success := false, message := "Unauthorized" }

/-- A protected route: the middleware runs first and the handler runs only
when it attaches a principal (server.js mounts `verifyToken` ahead of every
document handler, e.g. line 155). -/
def protectedRoute (verify : String → Option Principal)
    (authHeader : Option String) (handler : Principal → Sys → Response × Sys)
    (s : Sys) : Response × Sys :=
  match verifyToken verify authHeader with
  | AuthResult.noToken => (noTokenResp, s)
  | AuthResult.invalidToken => (invalidTokenResp, s)
  | AuthResult.ok u => handler u s

/-- A serialized run of local-store creates: the read-modify-write block of
the local create (server.js 187-190) is synchronous (no `await` between
`readLocalMetadata` and `writeLocalMetadata`), so under Node's
run-to-completion scheduling concurrent creates execute as some sequence of
atomic creates; `ops` lists each create's docData and its (Date.now, random)
pair in that sequence order. -/
def runLocalCreates (ops : List (DocData × Nat × Nat))
    (st : List DocRecord) : List DocRecord :=
  ops.foldl (fun acc p => localCreate p.1 p.2.1 p.2.2 acc) st

/-! Concrete fixtures used by witnesses and counterexamples. -/

/-- A sample authenticated principal. -/
def exUser : Principal := { uid := "user-1", email := "user-1@example.com" }

/-- A sample valid multer file (a small .txt upload). -/
def exFile : UploadedFile :=
  { filename := "upload-1-2.txt", originalname := "notes.txt",
    mimetype := "text/plain", size := 5, path := "uploads/upload-1-2.txt" }

/-- A sample stored record owned by "owner", whose file is on disk. -/
def exOwnerRec : DocRecord :=
  { id := "doc1", userId := "owner", userEmail := "owner@example.com",
    fileName := "f1.txt", originalName := "orig1.txt",
    fileType := "text/plain", fileSize := 3, filePath := "uploads/f1.txt",
    status := "uploaded", uploadedAt := TimeVal.sentinel }

/-- A system state holding that one record and its backing file. -/
def exSys : Sys := { store := [exOwnerRec], disk := ["uploads/f1.txt"] }

/-! Helper lemmas about the descending insertion sort. -/

theorem insertDesc_perm (r : DocRecord) (l : List DocRecord) :
    List.Perm (insertDesc r l) (r :: l) := by
  induction l with
  | nil => simp [insertDesc]
  | cons x xs ih =>
    by_cases h : tval x.uploadedAt ≤ tval r.uploadedAt
    · simp [insertDesc, h]
    · simp only [insertDesc, if_neg h]
      exact (List.Perm.cons x ih).trans (List.Perm.swap r x xs)

theorem sortDesc_perm (l : List DocRecord) : List.Perm (sortDesc l) l := by
  induction l with
  | nil => simp [sortDesc]
  | cons x xs ih =>
    exact (insertDesc_perm x (sortDesc xs)).trans (List.Perm.cons x ih)

theorem sortedDescB_insertDesc (r : DocRecord) :
    ∀ l : List DocRecord, sortedDescB l = true →
      sortedDescB (insertDesc r l) = true
  | [], _ => by simp [insertDesc, sortedDescB]
  | [x], _ => by
    by_cases hx : tval x.uploadedAt ≤ tval r.uploadedAt
    · simp [insertDesc, hx, sortedDescB]
    · have hr : tval r.uploadedAt ≤ tval x.uploadedAt :=
        Nat.le_of_lt (Nat.lt_of_not_le hx)
      simp [insertDesc, hx, sortedDescB, hr]
  | x :: y :: ys, h => by
    have h1 : tval y.uploadedAt ≤ tval x.uploadedAt := by
      simp only [sortedDescB, Bool.and_eq_true, decide_eq_true_eq] at h
      exact h.1
    have h2 : sortedDescB (y :: ys) = true := by
      simp only [sortedDescB, Bool.and_eq_true, decide_eq_true_eq] at h
      exact h.2
    by_cases hx : tval x.uploadedAt ≤ tval r.uploadedAt
    · simp [insertDesc, hx, sortedDescB, h1, h2]
    · have hr : tval r.uploadedAt ≤ tval x.uploadedAt :=
        Nat.le_of_lt (Nat.lt_of_not_le hx)
      have ih := sortedDescB_insertDesc r (y :: ys) h2
      by_cases hy : tval y.uploadedAt ≤ tval r.uploadedAt
      · simp only [insertDesc, if_neg hx, if_pos hy] at *
        simp [sortedDescB, hr, hy, h2]
      · simp only [insertDesc, if_neg hx, if_neg hy] at *
        simp only [sortedDescB, Bool.and_eq_true, decide_eq_true_eq]
        exact ⟨h1, ih⟩

theorem sortedDescB_sortDesc (l : List DocRecord) :
    sortedDescB (sortDesc l) = true := by
  induction l with
  | nil => simp [sortDesc, sortedDescB]
  | cons x xs ih => exact sortedDescB_insertDesc x (sortDesc xs) ih

/-! Claim theorems. -/

/-- C1: for every authenticated request to getById, updateStatus or delete
on an existing record whose owner differs from the caller, in both the
remote and the local backend, the handler answers 403 Access denied — a
response distinct from the 404 Not found one — and neither the metadata
store nor the disk changes. -/
theorem c1_ownership_enforced (uid docId stv : String) (d : DocRecord)
    (s : Sys) (wf : Bool) (uf : String → Bool)
    (hfind : s.store.find? (fun r => r.id == docId) = some d)
    (hown : d.userId ≠ uid) (hstv : stv ≠ "") :
    localGetById uid docId s = (accessDeniedResp, s) ∧
    remoteGetById uid docId s = (accessDeniedResp, s) ∧
    localUpdateStatus wf uid docId (some stv) s = (accessDeniedResp, s) ∧
    remoteUpdateStatus uid docId (some stv) s = (accessDeniedResp, s) ∧
    localDelete uf wf uid docId s = (accessDeniedResp, s) ∧
    remoteDelete uf uid docId s = (accessDeniedResp, s) ∧
    accessDeniedResp.status = 403 ∧ notFoundResp.status = 404 ∧
    accessDeniedResp ≠ notFoundResp := by
  have hbne : (d.userId != uid) = true := by
    simp [bne_iff_ne, hown]
  refine ⟨?_, ?_, ?_, ?_, ?_, ?_, rfl, rfl, by decide⟩ <;>
    simp [localGetById, remoteGetById, localUpdateStatus, remoteUpdateStatus,
      localDelete, remoteDelete, strFalsy, hfind, hbne, hstv]

/-- Witness for C1: a caller "other" hitting the record owned by "owner". -/
theorem c1_witness :
    localGetById "other" "doc1" exSys = (accessDeniedResp, exSys) ∧
    remoteGetById "other" "doc1" exSys = (accessDeniedResp, exSys) ∧
    localUpdateStatus false "other" "doc1" (some "reviewed") exSys =
      (accessDeniedResp, exSys) ∧
    remoteUpdateStatus "other" "doc1" (some "reviewed") exSys =
      (accessDeniedResp, exSys) ∧
    localDelete (fun _ => false) false "other" "doc1" exSys =
      (accessDeniedResp, exSys) ∧
    remoteDelete (fun _ => false) "other" "doc1" exSys =
      (accessDeniedResp, exSys) ∧
    accessDeniedResp.status = 403 ∧ notFoundResp.status = 404 ∧
    accessDeniedResp ≠ notFoundResp :=
  c1_ownership_enforced "other" "doc1" "reviewed" exOwnerRec exSys false
    (fun _ => false) (by decide) (by decide) (by decide)

/-- C2 counterexample: the local list handler does not sort; a backing file
whose two owner-X records sit in ascending `createdAt` order is returned in
that same ascending order, so the output is not ordered by `createdAt`
descending as the claim states for both backends. -/
theorem c2_counterexample :
    localListByOwner "X"
        [{ exOwnerRec with id := "a", userId := "X",
                           uploadedAt := TimeVal.time 1 },
         { exOwnerRec with id := "b", userId := "X",
                           uploadedAt := TimeVal.time 2 }] =
      [{ exOwnerRec with id := "a", userId := "X",
                         uploadedAt := TimeVal.time 1 },
       { exOwnerRec with id := "b", userId := "X",
                         uploadedAt := TimeVal.time 2 }] ∧
    sortedDescB (localListByOwner "X"
        [{ exOwnerRec with id := "a", userId := "X",
                           uploadedAt := TimeVal.time 1 },
         { exOwnerRec with id := "b", userId := "X",
                           uploadedAt := TimeVal.time 2 }]) = false := by
  decide

/-- C2 amended: both backends return exactly the caller's records (never
another owner's); the remote backend returns them ordered by `createdAt`
descending, while the local backend returns them unsorted, in the order of
the backing file. -/
theorem c2_amended (uid : String) (db st : List DocRecord) :
    List.Perm (remoteListByOwner uid db)
      (db.filter (fun d => d.userId == uid)) ∧
    (∀ r : DocRecord, r ∈ remoteListByOwner uid db ↔ r ∈ db ∧ r.userId = uid) ∧
    sortedDescB (remoteListByOwner uid db) = true ∧
    localListByOwner uid st = st.filter (fun d => d.userId == uid) ∧
    (∀ r : DocRecord, r ∈ localListByOwner uid st ↔ r ∈ st ∧ r.userId = uid) := by
  refine ⟨sortDesc_perm _, ?_, sortedDescB_sortDesc _, rfl, ?_⟩
  · intro r
    unfold remoteListByOwner
    rw [List.Perm.mem_iff (sortDesc_perm _)]
    simp [List.mem_filter]
  · intro r
    simp [localListByOwner, List.mem_filter]

/-- Witness for C2 amended, at a two-owner store. -/
theorem c2_witness :
    List.Perm (remoteListByOwner "owner" [exOwnerRec])
      ([exOwnerRec].filter (fun d => d.userId == "owner")) ∧
    (∀ r : DocRecord, r ∈ remoteListByOwner "owner" [exOwnerRec] ↔
        r ∈ [exOwnerRec] ∧ r.userId = "owner") ∧
    sortedDescB (remoteListByOwner "owner" [exOwnerRec]) = true ∧
    localListByOwner "owner" [exOwnerRec] =
      [exOwnerRec].filter (fun d => d.userId == "owner") ∧
    (∀ r : DocRecord, r ∈ localListByOwner "owner" [exOwnerRec] ↔
        r ∈ [exOwnerRec] ∧ r.userId = "owner") :=
  c2_amended "owner" [exOwnerRec] [exOwnerRec]

/-- C3: every upload passing all validation rules (file present, allowed
extension, whitelisted declared type, size within the ceiling) creates
exactly one metadata record — prepended locally, added remotely — whose
ownerId and ownerEmail come from the authenticated principal and whose
status is the string "uploaded", and the response is a 201 carrying the
assigned id. -/
theorem c3_valid_upload_creates_record (user : Principal) (f : UploadedFile)
    (now rand serverNow : Nat) (freshId : String) (st db : List DocRecord)
    (hext : lowercase (extname f.originalname) ∈ ALLOWED_EXTS)
    (hmime : f.mimetype ∈ ALLOWED_MIME)
    (hsize : f.size ≤ MAX_FILE_SIZE_BYTES) :
    localUpload false user (some f) now rand st =
      ({ status := 201, success := true,
         message := "File uploaded & metadata saved locally",
         id := some (localId now rand) },
       withId (localId now rand) (mkDocData user f) :: st) ∧
    remoteUpload false user (some f) freshId serverNow db =
      ({ status := 201, success := true,
         message := "File uploaded & metadata saved to Firestore",
         id := some freshId },
       db ++ [withId freshId
                { mkDocData user f with uploadedAt := TimeVal.time serverNow }]) ∧
    (withId (localId now rand) (mkDocData user f)).userId = user.uid ∧
    (withId (localId now rand) (mkDocData user f)).userEmail = user.email ∧
    (withId (localId now rand) (mkDocData user f)).status = "uploaded" ∧
    (withId freshId
      { mkDocData user f with uploadedAt := TimeVal.time serverNow }).userId
        = user.uid ∧
    (withId freshId
      { mkDocData user f with uploadedAt := TimeVal.time serverNow }).userEmail
        = user.email ∧
    (withId freshId
      { mkDocData user f with uploadedAt := TimeVal.time serverNow }).status
        = "uploaded" := by
  have hff : fileFilterOk f = true := by
    simp [fileFilterOk, hext, hmime]
  refine ⟨?_, ?_, rfl, rfl, rfl, rfl, rfl, rfl⟩ <;>
    simp [localUpload, remoteUpload, multerStage, hff, hsize, localCreate,
      writeLocalMetadata]

/-- Witness for C3: a valid 5-byte .txt upload. -/
theorem c3_witness :
    localUpload false exUser (some exFile) 1 2 [] =
      ({ status := 201, success := true,
         message := "File uploaded & metadata saved locally",
         id := some (localId 1 2) },
       withId (localId 1 2) (mkDocData exUser exFile) :: []) ∧
    remoteUpload false exUser (some exFile) "fire1" 9 [] =
      ({ status := 201, success := true,
         message := "File uploaded & metadata saved to Firestore",
         id := some "fire1" },
       [] ++ [withId "fire1"
                { mkDocData exUser exFile with uploadedAt := TimeVal.time 9 }]) ∧
    (withId (localId 1 2) (mkDocData exUser exFile)).userId = exUser.uid ∧
    (withId (localId 1 2) (mkDocData exUser exFile)).userEmail = exUser.email ∧
    (withId (localId 1 2) (mkDocData exUser exFile)).status = "uploaded" ∧
    (withId "fire1"
      { mkDocData exUser exFile with uploadedAt := TimeVal.time 9 }).userId
        = exUser.uid ∧
    (withId "fire1"
      { mkDocData exUser exFile with uploadedAt := TimeVal.time 9 }).userEmail
        = exUser.email ∧
    (withId "fire1"
      { mkDocData exUser exFile with uploadedAt := TimeVal.time 9 }).status
        = "uploaded" :=
  c3_valid_upload_creates_record exUser exFile 1 2 9 "fire1" [] []
    (by decide) (by decide) (by decide)

/-- C4: the upload pipeline rejects exactly as the spec's ordered checks
(file presence, then extension, then declared content type, then the size
ceiling, stopping at the first failure) prescribe — `specValidate` is the
spec-ordered validator and the code's multer-plus-handler pipeline produces
its verdict — and on every rejection no metadata record is created in
either backend and the response carries no id and no success. -/
theorem c4_validation_order (wf rf : Bool) (user : Principal)
    (file : Option UploadedFile) (now rand serverNow : Nat) (freshId : String)
    (st db : List DocRecord) (e : UploadReject)
    (hrej : specValidate file = some e) :
    localUpload wf user file now rand st = (rejectResponse e, st) ∧
    remoteUpload rf user file freshId serverNow db = (rejectResponse e, db) ∧
    (rejectResponse e).success = false ∧ (rejectResponse e).id = none := by
  have hresp : ∀ e' : UploadReject,
      (rejectResponse e').success = false ∧ (rejectResponse e').id = none := by
    intro e'
    cases e' <;> simp [rejectResponse, errorHandler, noFileResp]
  cases file with
  | none =>
    simp only [specValidate, Option.some.injEq] at hrej
    subst hrej
    exact ⟨by simp [localUpload, multerStage, rejectResponse],
           by simp [remoteUpload, multerStage, rejectResponse],
           (hresp _).1, (hresp _).2⟩
  | some f =>
    by_cases hext : lowercase (extname f.originalname) ∈ ALLOWED_EXTS
    · by_cases hmime : f.mimetype ∈ ALLOWED_MIME
      · by_cases hsize : f.size ≤ MAX_FILE_SIZE_BYTES
        · exfalso
          simp [specValidate, hext, hmime, hsize] at hrej
        · have he : e = UploadReject.fileTooLarge := by
            simp [specValidate, hext, hmime, hsize] at hrej
            exact hrej.symm
          subst he
          have hff : fileFilterOk f = true := by
            simp [fileFilterOk, hext, hmime]
          exact ⟨by simp [localUpload, multerStage, hff, hsize, rejectResponse],
                 by simp [remoteUpload, multerStage, hff, hsize, rejectResponse],
                 (hresp _).1, (hresp _).2⟩
      · have he : e = UploadReject.invalidFileType := by
          simp [specValidate, hext, hmime] at hrej
          exact hrej.symm
        subst he
        have hff : fileFilterOk f = false := by
          simp [fileFilterOk, hmime]
        exact ⟨by simp [localUpload, multerStage, hff, rejectResponse],
               by simp [remoteUpload, multerStage, hff, rejectResponse],
               (hresp _).1, (hresp _).2⟩
    · have he : e = UploadReject.invalidFileType := by
        simp [specValidate, hext] at hrej
        exact hrej.symm
      subst he
      have hff : fileFilterOk f = false := by
        simp [fileFilterOk, hext]
      exact ⟨by simp [localUpload, multerStage, hff, rejectResponse],
             by simp [remoteUpload, multerStage, hff, rejectResponse],
             (hresp _).1, (hresp _).2⟩

/-- Witness for C4: a .exe upload with a mismatched declared type is
rejected as an invalid file type and creates nothing in either backend. -/
theorem c4_witness :
    specValidate (some { exFile with originalname := "virus.exe",
                                     mimetype := "application/octet-stream" }) =
      some UploadReject.invalidFileType ∧
    (localUpload false exUser
        (some { exFile with originalname := "virus.exe",
                            mimetype := "application/octet-stream" }) 1 2
        [exOwnerRec] =
      (rejectResponse UploadReject.invalidFileType, [exOwnerRec]) ∧
    remoteUpload false exUser
        (some { exFile with originalname := "virus.exe",
                            mimetype := "application/octet-stream" }) "fire1" 9
        [exOwnerRec] =
      (rejectResponse UploadReject.invalidFileType, [exOwnerRec]) ∧
    (rejectResponse UploadReject.invalidFileType).success = false ∧
    (rejectResponse UploadReject.invalidFileType).id = none) :=
  ⟨by decide,
   c4_validation_order false false exUser
     (some { exFile with originalname := "virus.exe",
                         mimetype := "application/octet-stream" }) 1 2 9 "fire1"
     [exOwnerRec] [exOwnerRec] UploadReject.invalidFileType (by decide)⟩

/-- C5: a protected route answers 401 "No token provided" when the
Authorization header is missing or does not carry a bearer prefix, and 401
"Unauthorized" when the bearer token fails verification; in both cases this
holds for every handler and the state is returned untouched, so the handler
never runs and no side effect occurs. -/
theorem c5_auth_rejections (verify : String → Option Principal) (h : String)
    (handler : Principal → Sys → Response × Sys) (s : Sys) :
    protectedRoute verify none handler s = (noTokenResp, s) ∧
    (("Bearer ".toList.isPrefixOf h.toList) = false →
      protectedRoute verify (some h) handler s = (noTokenResp, s)) ∧
    (("Bearer ".toList.isPrefixOf h.toList) = true →
      verify (extractToken h) = none →
      protectedRoute verify (some h) handler s = (invalidTokenResp, s)) := by
  refine ⟨rfl, ?_, ?_⟩
  · intro hm
    have hres : verifyToken verify (some h) = AuthResult.noToken := by
      simp only [verifyToken]
      rw [hm]
      simp
    simp [protectedRoute, hres]
  · intro hp hv
    have hres : verifyToken verify (some h) = AuthResult.invalidToken := by
      simp only [verifyToken]
      rw [hp, hv]
      simp
    simp [protectedRoute, hres]

/-- Witness for C5: a malformed header and an unverifiable bearer token
against a verifier that rejects everything, over a protected handler. -/
theorem c5_witness :
    protectedRoute (fun _ => none) (some "Token abc")
        (fun _ s => (notFoundResp, s)) exSys = (noTokenResp, exSys) ∧
    protectedRoute (fun _ => none) (some "Bearer abc")
        (fun _ s => (notFoundResp, s)) exSys = (invalidTokenResp, exSys) :=
  ⟨(c5_auth_rejections (fun _ => none) "Token abc"
      (fun _ s => (notFoundResp, s)) exSys).2.1 (by decide),
   (c5_auth_rejections (fun _ => none) "Bearer abc"
      (fun _ s => (notFoundResp, s)) exSys).2.2 (by decide) rfl⟩

/-- C6 counterexample: deleting an owned existing record whose backing file
is on disk while `fs.unlinkSync` throws makes the handler answer 500 with
the state — metadata entry included — completely untouched: the file
deletion failure blocks the metadata deletion, contrary to the claim. -/
theorem c6_counterexample :
    localDelete (fun _ => true) false "owner" "doc1" exSys =
      (deleteFailedResp, exSys) ∧
    remoteDelete (fun _ => true) "owner" "doc1" exSys =
      (deleteFailedResp, exSys) ∧
    deleteFailedResp.status = 500 ∧
    (exSys.store.find? (fun r => r.id == "doc1")).isSome = true := by
  decide

/-- C6 amended: deleting an owned existing record removes the metadata
entry, and the backing file when it is present and unlinking succeeds; a
file already absent is treated as success; but when unlinking throws, the
handler answers 500 and the metadata entry is NOT removed (the file
deletion failure blocks the metadata deletion, in both backends). -/
theorem c6_amended (uf : String → Bool) (uid docId : String) (d : DocRecord)
    (s : Sys)
    (hfind : s.store.find? (fun r => r.id == docId) = some d)
    (hown : d.userId = uid) :
    (((d.filePath != "") && s.disk.contains d.filePath) = false →
      localDelete uf false uid docId s =
        (localDeletedResp,
         { store := s.store.filter (fun r => r.id != docId), disk := s.disk }) ∧
      remoteDelete uf uid docId s =
        (remoteDeletedResp,
         { store := s.store.filter (fun r => r.id != docId), disk := s.disk })) ∧
    (((d.filePath != "") && s.disk.contains d.filePath) = true →
      uf d.filePath = false →
      localDelete uf false uid docId s =
        (localDeletedResp,
         { store := s.store.filter (fun r => r.id != docId),
           disk := s.disk.erase d.filePath }) ∧
      remoteDelete uf uid docId s =
        (remoteDeletedResp,
         { store := s.store.filter (fun r => r.id != docId),
           disk := s.disk.erase d.filePath })) ∧
    (((d.filePath != "") && s.disk.contains d.filePath) = true →
      uf d.filePath = true →
      localDelete uf false uid docId s = (deleteFailedResp, s) ∧
      remoteDelete uf uid docId s = (deleteFailedResp, s)) := by
  have hbne : (d.userId != uid) = false := by
    simp [bne_eq_false_iff_eq, hown]
  refine ⟨?_, ?_, ?_⟩
  · intro hd
    constructor <;>
      · simp only [localDelete, remoteDelete, hfind]
        rw [hbne]
        simp only [Bool.false_eq_true, if_false]
        rw [hd]
        simp [writeLocalMetadata]
  · intro hd hu
    constructor <;>
      · simp only [localDelete, remoteDelete, hfind]
        rw [hbne]
        simp only [Bool.false_eq_true, if_false]
        rw [hd, hu]
        simp [writeLocalMetadata]
  · intro hd hu
    constructor <;>
      · simp only [localDelete, remoteDelete, hfind]
        rw [hbne]
        simp only [Bool.false_eq_true, if_false]
        rw [hd, hu]
        simp

/-- Witness for C6 amended: the owner deletes "doc1", whose file is on
disk, with an unlink that succeeds. -/
theorem c6_witness :
    ((exOwnerRec.filePath != "") &&
        exSys.disk.contains exOwnerRec.filePath) = true ∧
    ((fun _ => false : String → Bool) exOwnerRec.filePath = false) ∧
    (localDelete (fun _ => false) false "owner" "doc1" exSys =
      (localDeletedResp,
       { store := exSys.store.filter (fun r => r.id != "doc1"),
         disk := exSys.disk.erase exOwnerRec.filePath }) ∧
    remoteDelete (fun _ => false) "owner" "doc1" exSys =
      (remoteDeletedResp,
       { store := exSys.store.filter (fun r => r.id != "doc1"),
         disk := exSys.disk.erase exOwnerRec.filePath })) :=
  ⟨by decide, rfl,
   (c6_amended (fun _ => false) "owner" "doc1" exOwnerRec exSys
      (by decide) (by decide)).2.1 (by decide) rfl⟩

/-- C7 counterexample: a local create performed at call time 5 stores the
serverTimestamp placeholder as `uploadedAt`, not the call-time timestamp 5:
`createdAt` is not assigned at call time. -/
theorem c7_counterexample :
    (localUpload false exUser (some exFile) 5 7 []).2 =
      [withId (localId 5 7) (mkDocData exUser exFile)] ∧
    (withId (localId 5 7) (mkDocData exUser exFile)).uploadedAt =
      TimeVal.sentinel ∧
    TimeVal.sentinel ≠ TimeVal.time 5 := by
  decide

/-- C7 amended: the local create assigns the record the id
`local-<Date.now()>-<random>` and prepends the record to the stored list
(newest first), but its `uploadedAt` is the unresolved serverTimestamp
placeholder, not a timestamp assigned at call time. -/
theorem c7_amended (user : Principal) (f : UploadedFile) (now rand : Nat)
    (st : List DocRecord)
    (hff : fileFilterOk f = true) (hsize : f.size ≤ MAX_FILE_SIZE_BYTES) :
    (localUpload false user (some f) now rand st).2 =
      withId (localId now rand) (mkDocData user f) :: st ∧
    localId now rand = "local-" ++ toString now ++ "-" ++ toString rand ∧
    (withId (localId now rand) (mkDocData user f)).id = localId now rand ∧
    (withId (localId now rand) (mkDocData user f)).uploadedAt =
      TimeVal.sentinel := by
  refine ⟨?_, rfl, rfl, rfl⟩
  simp [localUpload, multerStage, hff, hsize, localCreate, writeLocalMetadata]

/-- Witness for C7 amended at a concrete valid upload. -/
theorem c7_witness :
    (localUpload false exUser (some exFile) 1 2 [exOwnerRec]).2 =
      withId (localId 1 2) (mkDocData exUser exFile) :: [exOwnerRec] ∧
    localId 1 2 = "local-" ++ toString 1 ++ "-" ++ toString 2 ∧
    (withId (localId 1 2) (mkDocData exUser exFile)).id = localId 1 2 ∧
    (withId (localId 1 2) (mkDocData exUser exFile)).uploadedAt =
      TimeVal.sentinel :=
  c7_amended exUser exFile 1 2 [exOwnerRec] (by decide) (by decide)

/-- C8 counterexample: when writing the local metadata file fails, the
upload handler still answers 201 success although nothing was persisted —
the store-layer failure is swallowed inside `writeLocalMetadata` instead of
being mapped to a 500. -/
theorem c8_counterexample :
    (localUpload true exUser (some exFile) 1 2 []).1.success = true ∧
    (localUpload true exUser (some exFile) 1 2 []).1.status = 201 ∧
    (localUpload true exUser (some exFile) 1 2 []).2 = [] := by
  decide

/-- C8 amended: a rejected remote-store call is caught at the handler
boundary and mapped to a generic 500 with nothing persisted; but a failure
to write the local metadata file is caught and logged inside
`writeLocalMetadata` itself, and the handler still answers 201 success with
the backing file unchanged. -/
theorem c8_amended (user : Principal) (f : UploadedFile)
    (now rand serverNow : Nat) (freshId : String) (st db : List DocRecord)
    (hff : fileFilterOk f = true) (hsize : f.size ≤ MAX_FILE_SIZE_BYTES) :
    remoteUpload true user (some f) freshId serverNow db =
      (uploadFailedResp, db) ∧
    uploadFailedResp.status = 500 ∧
    localUpload true user (some f) now rand st =
      ({ status := 201, success := true,
         message := "File uploaded & metadata saved locally",
         id := some (localId now rand) }, st) := by
  refine ⟨?_, rfl, ?_⟩ <;>
    simp [remoteUpload, localUpload, multerStage, hff, hsize,
      writeLocalMetadata, uploadFailedResp]

/-- Witness for C8 amended at a concrete valid upload. -/
theorem c8_witness :
    remoteUpload true exUser (some exFile) "fire1" 9 [exOwnerRec] =
      (uploadFailedResp, [exOwnerRec]) ∧
    uploadFailedResp.status = 500 ∧
    localUpload true exUser (some exFile) 1 2 [exOwnerRec] =
      ({ status := 201, success := true,
         message := "File uploaded & metadata saved locally",
         id := some (localId 1 2) }, [exOwnerRec]) :=
  c8_amended exUser exFile 1 2 9 "fire1" [exOwnerRec] [exOwnerRec]
    (by decide) (by decide)

/-- The record a serialized create builds from its (docData, now, rand). -/
theorem runLocalCreates_eq (ops : List (DocData × Nat × Nat))
    (st : List DocRecord) :
    runLocalCreates ops st =
      (ops.map (fun p => withId (localId p.2.1 p.2.2) p.1)).reverse ++ st := by
  induction ops generalizing st with
  | nil => simp [runLocalCreates]
  | cons p ops ih =>
    have hstep : runLocalCreates (p :: ops) st =
        runLocalCreates ops (withId (localId p.2.1 p.2.2) p.1 :: st) := rfl
    rw [hstep, ih]
    simp

/-- C9: the local read-modify-write create is a single synchronous block
(no await between the file read and the file write), so Node's
run-to-completion scheduling serializes concurrent creates into a sequence
of atomic creates; any such sequence of N creates against the empty store
whose generated ids do not collide yields a file of exactly N records with
N distinct ids, and no create's record is lost. -/
theorem c9_serialized_creates (ops : List (DocData × Nat × Nat))
    (hids : (ops.map (fun p => localId p.2.1 p.2.2)).Nodup) :
    (runLocalCreates ops []).length = ops.length ∧
    ((runLocalCreates ops []).map (fun r => r.id)).Nodup ∧
    (∀ p ∈ ops, withId (localId p.2.1 p.2.2) p.1 ∈ runLocalCreates ops []) := by
  rw [runLocalCreates_eq]
  refine ⟨by simp, ?_, ?_⟩
  · have hmm : ((ops.map (fun p => withId (localId p.2.1 p.2.2) p.1)).reverse
        ++ ([] : List DocRecord)).map (fun r => r.id) =
        (ops.map (fun p => localId p.2.1 p.2.2)).reverse := by
      simp [List.map_reverse, List.map_map, Function.comp, withId]
    rw [hmm]
    simpa using hids
  · intro p hp
    simp only [List.append_nil, List.mem_reverse]
    exact List.mem_map_of_mem _ hp

/-- Witness for C9: two serialized creates in the same millisecond with
distinct random suffixes. -/
theorem c9_witness :
    (([(mkDocData exUser exFile, (1, 2)),
       (mkDocData exUser exFile, (1, 3))].map
        (fun p => localId p.2.1 p.2.2)).Nodup) ∧
    ((runLocalCreates [(mkDocData exUser exFile, (1, 2)),
        (mkDocData exUser exFile, (1, 3))] []).length =
      [(mkDocData exUser exFile, (1, 2)),
       (mkDocData exUser exFile, (1, 3))].length ∧
    ((runLocalCreates [(mkDocData exUser exFile, (1, 2)),
        (mkDocData exUser exFile, (1, 3))] []).map (fun r => r.id)).Nodup ∧
    (∀ p ∈ [(mkDocData exUser exFile, (1, 2)),
            (mkDocData exUser exFile, (1, 3))],
      withId (localId p.2.1 p.2.2) p.1 ∈
        runLocalCreates [(mkDocData exUser exFile, (1, 2)),
          (mkDocData exUser exFile, (1, 3))] [])) :=
  ⟨by decide,
   c9_serialized_creates
     [(mkDocData exUser exFile, (1, 2)), (mkDocData exUser exFile, (1, 3))]
     (by decide)⟩

/-- C10: a local delete of an existing owned record (with the unlink not
throwing) removes from the backing list exactly the records whose id equals
the requested id; every record with a different id survives with all of its
fields unchanged. -/
theorem c10_delete_frame (uf : String → Bool) (uid docId : String)
    (d : DocRecord) (s : Sys)
    (hfind : s.store.find? (fun r => r.id == docId) = some d)
    (hown : d.userId = uid) (hunl : uf d.filePath = false) :
    (localDelete uf false uid docId s).2.store =
      s.store.filter (fun r => r.id != docId) ∧
    (∀ r ∈ s.store, r.id ≠ docId →
      r ∈ (localDelete uf false uid docId s).2.store) ∧
    (∀ r ∈ (localDelete uf false uid docId s).2.store,
      r ∈ s.store ∧ r.id ≠ docId) := by
  have hbne : (d.userId != uid) = false := by
    simp [bne_eq_false_iff_eq, hown]
  have hstore : (localDelete uf false uid docId s).2.store =
      s.store.filter (fun r => r.id != docId) := by
    by_cases hd : ((d.filePath != "") && s.disk.contains d.filePath) = true
    · simp only [localDelete, hfind]
      rw [hbne]
      simp only [Bool.false_eq_true, if_false]
      rw [hd, hunl]
      simp [writeLocalMetadata]
    · simp only [localDelete, hfind]
      rw [hbne]
      simp only [Bool.false_eq_true, if_false]
      rw [Bool.not_eq_true] at hd
      rw [hd]
      simp [writeLocalMetadata]
  refine ⟨hstore, ?_, ?_⟩
  · intro r hr hne
    rw [hstore]
    simp [List.mem_filter, hr, bne_iff_ne, hne]
  · intro r hr
    rw [hstore] at hr
    simp only [List.mem_filter, bne_iff_ne, ne_eq] at hr
    exact ⟨hr.1, hr.2⟩

/-- Witness for C10: the owner deletes "doc1" from a two-record store; the
other owner's record survives unchanged. -/
theorem c10_witness :
    (localDelete (fun _ => false) false "owner" "doc1"
        { store := [exOwnerRec, { exOwnerRec with id := "doc2" }],
          disk := ["uploads/f1.txt"] }).2.store =
      [exOwnerRec, { exOwnerRec with id := "doc2" }].filter
        (fun r => r.id != "doc1") ∧
    (∀ r ∈ [exOwnerRec, { exOwnerRec with id := "doc2" }], r.id ≠ "doc1" →
      r ∈ (localDelete (fun _ => false) false "owner" "doc1"
        { store := [exOwnerRec, { exOwnerRec with id := "doc2" }],
          disk := ["uploads/f1.txt"] }).2.store) ∧
    (∀ r ∈ (localDelete (fun _ => false) false "owner" "doc1"
        { store := [exOwnerRec, { exOwnerRec with id := "doc2" }],
          disk := ["uploads/f1.txt"] }).2.store,
      r ∈ [exOwnerRec, { exOwnerRec with id := "doc2" }] ∧ r.id ≠ "doc1") :=
  c10_delete_frame (fun _ => false) "owner" "doc1" exOwnerRec
    { store := [exOwnerRec, { exOwnerRec with id := "doc2" }],
      disk := ["uploads/f1.txt"] } (by decide) (by decide) rfl

end LegalDoc
